import Mathlib

/-!
Verification of the Puppy Station live-dashboard store (`src/db.js`) and its
Express/WebSocket server. The SQLite-backed store is embedded shallowly: each
table is a Lean list, `CURRENT_TIMESTAMP` is an explicit `now : Nat` parameter
(SQLite datetimes have one-second resolution, so equal timestamps are
possible), `AUTOINCREMENT` rowids are explicit counters, and throwing code
returns `Except`. SQL `ORDER BY` is modelled by a stable insertion sort over
the rows in insertion (rowid ascending) order, matching a scan of the
corresponding index: rows that compare equal under the requested keys are
returned in rowid-ascending order.
-/

/-- Stable insert: `x` is placed before the first element `y` with
`le x y = true`, so among elements that compare equal the previously
present ones keep their relative order and `x` precedes them only when the
comparator says so. -/
def insertOrdered {α : Type} (le : α → α → Bool) (x : α) : List α → List α
  | [] => [x]
  | y :: ys => if le x y then x :: y :: ys else y :: insertOrdered le x ys

/-- Stable insertion sort with a boolean comparator. -/
def sortBy {α : Type} (le : α → α → Bool) : List α → List α
  | [] => []
  | x :: xs => insertOrdered le x (sortBy le xs)

theorem insertOrdered_perm {α : Type} (le : α → α → Bool) (x : α) (l : List α) :
    List.Perm (insertOrdered le x l) (x :: l) := by
  induction l with
  | nil => simp [insertOrdered]
  | cons y ys ih =>
    by_cases h : le x y = true
    · rw [insertOrdered, if_pos h]
    · rw [insertOrdered, if_neg h]
      exact (List.Perm.cons y ih).trans (List.Perm.swap x y ys)

theorem sortBy_perm {α : Type} (le : α → α → Bool) (l : List α) :
    List.Perm (sortBy le l) l := by
  induction l with
  | nil => simp [sortBy]
  | cons x xs ih =>
    exact (insertOrdered_perm le x (sortBy le xs)).trans (List.Perm.cons x ih)

theorem mem_insertOrdered {α : Type} {le : α → α → Bool} {x z : α} {l : List α}
    (h : z ∈ insertOrdered le x l) : z = x ∨ z ∈ l :=
  List.mem_cons.mp ((insertOrdered_perm le x l).mem_iff.mp h)

theorem pairwise_insertOrdered {α : Type} {le : α → α → Bool}
    (total : ∀ a b, le a b = true ∨ le b a = true)
    (trans : ∀ a b c, le a b = true → le b c = true → le a c = true)
    (x : α) {l : List α}
    (h : l.Pairwise (fun a b => le a b = true)) :
    (insertOrdered le x l).Pairwise (fun a b => le a b = true) := by
  induction l with
  | nil => simp [insertOrdered]
  | cons y ys ih =>
    rcases h with _ | ⟨hy, hys⟩
    by_cases hxy : le x y = true
    · rw [insertOrdered, if_pos hxy]
      refine List.Pairwise.cons ?_ (List.Pairwise.cons hy hys)
      intro z hz
      rcases List.mem_cons.mp hz with heq | hz
      · rw [heq]; exact hxy
      · exact trans x y z hxy (hy z hz)
    · rw [insertOrdered, if_neg hxy]
      refine List.Pairwise.cons ?_ (ih hys)
      intro z hz
      rcases mem_insertOrdered hz with heq | hz
      · rw [heq]
        rcases total x y with h' | h'
        · exact absurd h' hxy
        · exact h'
      · exact hy z hz

theorem pairwise_sortBy {α : Type} {le : α → α → Bool}
    (total : ∀ a b, le a b = true ∨ le b a = true)
    (trans : ∀ a b c, le a b = true → le b c = true → le a c = true)
    (l : List α) :
    (sortBy le l).Pairwise (fun a b => le a b = true) := by
  induction l with
  | nil => simp [sortBy]
  | cons x xs ih => exact pairwise_insertOrdered total trans x ih

/-- If `x` is in `l` and strictly precedes every other element of `l` under the
comparator, the stable sort puts `x` first. -/
theorem sortBy_cons_of_strict {α : Type} {le : α → α → Bool}
    (total : ∀ a b, le a b = true ∨ le b a = true)
    (trans : ∀ a b c, le a b = true → le b c = true → le a c = true)
    {l : List α} {x : α}
    (hx : x ∈ l) (hstrict : ∀ y ∈ l, y ≠ x → le y x = false) :
    ∃ t, sortBy le l = x :: t := by
  have hperm := sortBy_perm le l
  have hpair := pairwise_sortBy total trans l
  cases hsort : sortBy le l with
  | nil =>
    exfalso
    have : x ∈ sortBy le l := hperm.mem_iff.mpr hx
    rw [hsort] at this
    exact absurd this (List.not_mem_nil x)
  | cons h t =>
    refine ⟨t, ?_⟩
    have hmemh : h ∈ l := hperm.mem_iff.mp (hsort ▸ List.mem_cons_self h t)
    by_cases hhx : h = x
    · rw [hhx]
    · exfalso
      have hxin : x ∈ h :: t := by
        have : x ∈ sortBy le l := hperm.mem_iff.mpr hx
        rwa [hsort] at this
      have hxt : x ∈ t := by
        rcases List.mem_cons.mp hxin with heq | hxt
        · exact absurd heq.symm hhx
        · exact hxt
      rw [hsort] at hpair
      rcases hpair with _ | ⟨hh, _⟩
      have hle : le h x = true := hh x hxt
      have hnle : le h x = false := hstrict h hmemh hhx
      rw [hle] at hnle
      simp at hnle

namespace PuppyStation

/-- Error taxonomy of the spec for failures the store can raise. The only
failure reachable in `src/db.js` once the database is open is a
FOREIGN KEY constraint violation on an unknown `agent_id`; better-sqlite3
enforces foreign keys by default, and the spec taxonomy calls this
unknown-entity failure `NotFoundError`. -/
inductive DbError : Type
  | notFound : DbError
deriving DecidableEq

/-- One row of the `agents` table (src/db.js lines 23-34). Timestamps are
`Nat` seconds; `current_task` is nullable. -/
structure Agent : Type where
  id : String
  name : String
  emoji : String
  role : String
  model : String
  status : String
  current_task : Option String
  updated_at : Nat
deriving DecidableEq

/-- One row of the `activities` table (src/db.js lines 37-47). `id` is the
AUTOINCREMENT rowid. -/
structure Activity : Type where
  id : Nat
  agent_id : String
  type : String
  description : String
  metadata_json : String
  timestamp : Nat
deriving DecidableEq

/-- One row of the `reviews` table (src/db.js lines 56-67). -/
structure Review : Type where
  id : Nat
  agent_id : String
  question : String
  priority : String
  status : String
  created_at : Nat
  resolved_at : Option Nat
deriving DecidableEq

/-- The whole SQLite database: one list per table, kept in insertion order,
plus the next AUTOINCREMENT rowid of each integer-keyed table. -/
structure Db : Type where
  agents : List Agent
  activities : List Activity
  reviews : List Review
  nextActivityId : Nat
  nextReviewId : Nat
deriving DecidableEq

/-- A freshly created database: empty tables, AUTOINCREMENT starts at 1. -/
def emptyDb : Db :=
  { agents := [], activities := [], reviews := [], nextActivityId := 1, nextReviewId := 1 }

/-- `JSON.stringify` of the simple metadata objects the callers build.
Escaping of special characters inside the payload strings is not modelled;
every metadata value used by the claims is plain text. -/
def jsonStr (s : String) : String := "\x22" ++ s ++ "\x22"

def jsonTask (task : String) : String :=
  "\x7b" ++ jsonStr "task" ++ ":" ++ jsonStr task ++ "\x7d"

def jsonStatus (status : String) : String :=
  "\x7b" ++ jsonStr "status" ++ ":" ++ jsonStr status ++ "\x7d"

def jsonReviewId (reviewId : Nat) : String :=
  "\x7b" ++ jsonStr "review_id" ++ ":" ++ toString reviewId ++ "\x7d"

def jsonReviewMeta (reviewId : Nat) (priority : String) : String :=
  "\x7b" ++ jsonStr "review_id" ++ ":" ++ toString reviewId ++ "," ++
    jsonStr "priority" ++ ":" ++ jsonStr priority ++ "\x7d"

def jsonSeedSource : String :=
  "\x7b" ++ jsonStr "source" ++ ":" ++ jsonStr "database_seed" ++ "\x7d"

def jsonEmpty : String := "\x7b\x7d"

/-- `logActivity(agentId, type, description, metadata)` (src/db.js lines
149-166): INSERT one activity row, then refresh the owning agent's
`updated_at`, returning `lastInsertRowid`. The INSERT throws when `agent_id`
references no agent row (foreign key); the spec calls that `NotFoundError`.
The caller passes `metadataJson = JSON.stringify(metadata)`. -/
def logActivity (d : Db) (agentId ty description metadataJson : String) (now : Nat) :
    Except DbError (Db × Nat) :=
  if d.agents.any (fun a => a.id == agentId) then
    Except.ok
      ({ d with
          activities := d.activities ++
            [{ id := d.nextActivityId, agent_id := agentId, type := ty,
               description := description, metadata_json := metadataJson,
               timestamp := now }],
          agents := d.agents.map (fun a =>
            if a.id == agentId then { a with updated_at := now } else a),
          nextActivityId := d.nextActivityId + 1 },
       d.nextActivityId)
  else
    Except.error DbError.notFound

/-- `updateAgentTask(agentId, task)` (src/db.js lines 169-185): UPDATE the
agent row (task, status forced to active, `updated_at`); when a row was
changed, also `logActivity` with type `task_update`; returns
`result.changes > 0`. -/
def updateAgentTask (d : Db) (agentId task : String) (now : Nat) :
    Except DbError (Db × Bool) :=
  if d.agents.any (fun a => a.id == agentId) then
    let d1 : Db :=
      { d with
          agents := d.agents.map (fun a =>
            if a.id == agentId then
              { a with current_task := some task, status := "active", updated_at := now }
            else a) }
    (logActivity d1 agentId "task_update" ("Updated task: " ++ task)
        (jsonTask task) now).map (fun p => (p.1, true))
  else
    Except.ok (d, false)

/-- `updateAgentStatus(agentId, status)` (src/db.js lines 188-198): a bare
UPDATE of the status column — no enum validation and no activity logging —
returning `result.changes > 0`. -/
def updateAgentStatus (d : Db) (agentId status : String) (now : Nat) : Db × Bool :=
  if d.agents.any (fun a => a.id == agentId) then
    ({ d with
        agents := d.agents.map (fun a =>
          if a.id == agentId then { a with status := status, updated_at := now } else a) },
     true)
  else
    (d, false)

/-- `getAgent(agentId)` (src/db.js lines 212-220). -/
def getAgent (d : Db) (agentId : String) : Option Agent :=
  d.agents.find? (fun a => a.id == agentId)

/-- Comparator of `ORDER BY timestamp DESC` on activity rows: there is no id
tie-break in either query, so rows with equal timestamps keep their
rowid-ascending index order under the stable sort. -/
def tsDesc {α : Type} (ts : α → Nat) (x y : α) : Bool := Nat.ble (ts y) (ts x)

/-- One SELECTed row of `getRecentActivities` (activities JOIN agents). -/
structure RecentRow : Type where
  id : Nat
  agent_id : String
  type : String
  description : String
  metadata_json : String
  timestamp : Nat
  agent_name : String
  agent_emoji : String
deriving DecidableEq

/-- `getRecentActivities(limit)` (src/db.js lines 223-235): JOIN each activity
with its agent, ORDER BY `a.timestamp DESC` (no further key), LIMIT. -/
def getRecentActivities (d : Db) (limit : Nat) : List RecentRow :=
  let joined : List RecentRow := d.activities.filterMap (fun a =>
    (d.agents.find? (fun ag => ag.id == a.agent_id)).map (fun ag =>
      { id := a.id, agent_id := a.agent_id, type := a.type,
        description := a.description, metadata_json := a.metadata_json,
        timestamp := a.timestamp, agent_name := ag.name, agent_emoji := ag.emoji }))
  (sortBy (tsDesc RecentRow.timestamp) joined).take limit

/-- `getAgentActivities(agentId, limit)` (src/db.js lines 238-248): WHERE
`agent_id = ?`, ORDER BY `timestamp DESC` (no further key), LIMIT. -/
def getAgentActivities (d : Db) (agentId : String) (limit : Nat) : List Activity :=
  (sortBy (tsDesc Activity.timestamp)
      (d.activities.filter (fun a => a.agent_id == agentId))).take limit

/-- The CASE expression ranking priorities in `getPendingReviews`
(src/db.js lines 262-267). -/
def priorityRank (p : String) : Nat :=
  if p = "high" then 1 else if p = "medium" then 2 else if p = "low" then 3 else 4

/-- One SELECTed row of `getPendingReviews` (reviews JOIN agents). -/
structure PendingRow : Type where
  id : Nat
  agent_id : String
  question : String
  priority : String
  status : String
  created_at : Nat
  agent_name : String
  agent_emoji : String
deriving DecidableEq

/-- Comparator of `ORDER BY CASE priority ... END, created_at DESC`. -/
def reviewOrder (x y : PendingRow) : Bool :=
  Nat.blt (priorityRank x.priority) (priorityRank y.priority) ||
    (priorityRank x.priority == priorityRank y.priority &&
      Nat.ble y.created_at x.created_at)

/-- `getPendingReviews()` (src/db.js lines 251-270): WHERE `status =
'pending'`, JOIN agents, ordered by priority rank ascending then
`created_at DESC`. -/
def getPendingReviews (d : Db) : List PendingRow :=
  let joined : List PendingRow :=
    (d.reviews.filter (fun r => r.status == "pending")).filterMap (fun r =>
      (d.agents.find? (fun ag => ag.id == r.agent_id)).map (fun ag =>
        { id := r.id, agent_id := r.agent_id, question := r.question,
          priority := r.priority, status := r.status, created_at := r.created_at,
          agent_name := ag.name, agent_emoji := ag.emoji }))
  sortBy reviewOrder joined

/-- `addReview(agentId, question, priority)` (src/db.js lines 273-289):
INSERT the review (the foreign key rejects an unknown agent), then
`logActivity` with type `review_created` and the first 50 characters of the
question; returns `lastInsertRowid`. -/
def addReview (d : Db) (agentId question priority : String) (now : Nat) :
    Except DbError (Db × Nat) :=
  if d.agents.any (fun a => a.id == agentId) then
    let rid : Nat := d.nextReviewId
    let d1 : Db :=
      { d with
          reviews := d.reviews ++
            [{ id := rid, agent_id := agentId, question := question,
               priority := priority, status := "pending", created_at := now,
               resolved_at := none }],
          nextReviewId := rid + 1 }
    (logActivity d1 agentId "review_created"
        ("Created review: " ++ question.take 50 ++ "...")
        (jsonReviewMeta rid priority) now).map (fun p => (p.1, rid))
  else
    Except.error DbError.notFound

/-- `resolveReview(reviewId)` (src/db.js lines 292-313): an UPDATE with
`WHERE id = ?` and no status condition — `changes > 0` whenever the id
exists, already resolved or not — then a SELECT of the row and, when found,
a `review_resolved` activity. Returns `changes > 0`. On the unreachable
throwing path (a review row whose agent was deleted) the request aborts;
partial state persisted before the throw is not modelled. -/
def resolveReview (d : Db) (reviewId : Nat) (now : Nat) :
    Except DbError (Db × Bool) :=
  if d.reviews.any (fun r => r.id == reviewId) then
    let d1 : Db :=
      { d with
          reviews := d.reviews.map (fun r =>
            if r.id == reviewId then
              { r with status := "resolved", resolved_at := some now }
            else r) }
    match d1.reviews.find? (fun r => r.id == reviewId) with
    | some r =>
        (logActivity d1 r.agent_id "review_resolved"
            ("Resolved review: " ++ r.question.take 50 ++ "...")
            (jsonReviewId reviewId) now).map (fun p => (p.1, true))
    | none => Except.ok (d1, true)
  else
    Except.ok (d, false)

/-- Raw `INSERT INTO agents` as done by `seedInitialAgents`. -/
def insertAgent (d : Db) (a : Agent) : Db := { d with agents := d.agents ++ [a] }

/-- One iteration of the seeding loop in `seedInitialAgents` (src/db.js
lines 122-125): insert the agent row, then log its system activity. -/
def seedOne (d : Db) (id name emoji role model status task : String) (now : Nat) :
    Except DbError Db := do
  let d1 := insertAgent d
    { id := id, name := name, emoji := emoji, role := role, model := model,
      status := status, current_task := some task, updated_at := now }
  let p ← logActivity d1 id "system" (name ++ " initialized and ready") jsonSeedSource now
  pure p.1

/-- `seedSampleReviews()` (src/db.js lines 135-146): three raw review
INSERTs (notably not through `addReview`, so no `review_created`
activities). -/
def seedSampleReviews (d : Db) (now : Nat) : Db :=
  let ins := fun (d : Db) (aid q p : String) =>
    { d with
        reviews := d.reviews ++
          [{ id := d.nextReviewId, agent_id := aid, question := q, priority := p,
             status := "pending", created_at := now, resolved_at := none }],
        nextReviewId := d.nextReviewId + 1 }
  ins (ins (ins d
      "zoomie" "Should we use SwiftUI or UIKit for the AIGIS iOS enforcement module?" "high")
      "mechly" "What database should we use for the agent session storage - SQLite or PostgreSQL?" "medium")
      "buppy" "Should we add voice notifications for urgent reviews?" "low"

/-- `seedInitialAgents()` (src/db.js lines 84-132): only when the agents
table is empty, insert the three fleet agents (each with a `system`
activity) and then the sample reviews. -/
def seedInitialAgents (d : Db) (now : Nat) : Except DbError Db :=
  if d.agents.length == 0 then do
    let d1 ← seedOne d "buppy" "Buppy" "🐕" "Primary Coordinator"
      "moonshot/kimi-k2.5" "active"
      "Coordinating agent fleet and managing Admin requests" now
    let d2 ← seedOne d1 "zoomie" "Zoomie" "⚡" "AIGIS Lead Developer"
      "nvidia/kimi-k2.5" "active"
      "Implementing iOS Screen Time integration for AIGIS Phase 2" now
    let d3 ← seedOne d2 "mechly" "Mechly" "🔧" "Tool Builder & Infrastructure"
      "moonshot/kimi-k2.5" "active"
      "Building Agent Dashboard UI and API endpoints" now
    pure (seedSampleReviews d3 now)
  else
    pure d

/-- `initDb()` (src/db.js lines 12-81): `CREATE TABLE IF NOT EXISTS` and
`CREATE INDEX IF NOT EXISTS` leave an existing database unchanged, so on the
state level initialization is exactly the conditional seeding. -/
def initDb (d : Db) (now : Nat) : Except DbError Db :=
  seedInitialAgents d now

/-- One message handed to `broadcast` by the server (src/unnamed/part_000),
identified by its `type` tag and payload. -/
inductive Msg : Type
  | activity (agentId : String) (activityId : Nat)
  | statusUpdate (agentId status : String)
  | taskUpdate (agentId task : String)
  | review (reviewId : Nat)
  | reviewResolved (reviewId : Nat)
deriving DecidableEq

/-- `JSON.stringify(data)` of a broadcast message — the single serialization
performed per StateChange in `broadcast` (src/unnamed/part_000 line 274). -/
def serializeMsg : Msg → String
  | Msg.activity agentId activityId =>
      "\x7b" ++ jsonStr "type" ++ ":" ++ jsonStr "activity" ++ "," ++
        jsonStr "agentId" ++ ":" ++ jsonStr agentId ++ "," ++
        jsonStr "activityId" ++ ":" ++ toString activityId ++ "\x7d"
  | Msg.statusUpdate agentId status =>
      "\x7b" ++ jsonStr "type" ++ ":" ++ jsonStr "status_update" ++ "," ++
        jsonStr "agentId" ++ ":" ++ jsonStr agentId ++ "," ++
        jsonStr "status" ++ ":" ++ jsonStr status ++ "\x7d"
  | Msg.taskUpdate agentId task =>
      "\x7b" ++ jsonStr "type" ++ ":" ++ jsonStr "task_update" ++ "," ++
        jsonStr "agentId" ++ ":" ++ jsonStr agentId ++ "," ++
        jsonStr "task" ++ ":" ++ jsonStr task ++ "\x7d"
  | Msg.review reviewId =>
      "\x7b" ++ jsonStr "type" ++ ":" ++ jsonStr "review" ++ "," ++
        jsonStr "reviewId" ++ ":" ++ toString reviewId ++ "\x7d"
  | Msg.reviewResolved reviewId =>
      "\x7b" ++ jsonStr "type" ++ ":" ++ jsonStr "review-resolved" ++ "," ++
        jsonStr "reviewId" ++ ":" ++ toString reviewId ++ "\x7d"

/-- `POST /api/agents/:id/status` (src/unnamed/part_000 lines 126-153).
`body` is `req.body.status`: `none` for a missing field; the JS falsy test
`!status` also rejects the empty string. Returns the updated database, the
HTTP status code, and the messages handed to `broadcast` in order
(`logAgentActivity` broadcasts the `activity` message and swallows logging
errors; the handler then broadcasts `status_update`). -/
def postAgentStatus (d : Db) (agentId : String) (body : Option String) (now : Nat) :
    Db × Nat × List Msg :=
  match body with
  | none => (d, 400, [])
  | some status =>
    if status = "" then (d, 400, [])
    else
      match getAgent d agentId with
      | none => (d, 404, [])
      | some _ =>
        match updateAgentStatus d agentId status now with
        | (d1, true) =>
          match logActivity d1 agentId "status_change" ("Status changed to " ++ status)
              (jsonStatus status) now with
          | Except.ok (d2, aid) =>
              (d2, 200, [Msg.activity agentId aid, Msg.statusUpdate agentId status])
          | Except.error _ =>
              (d1, 200, [Msg.statusUpdate agentId status])
        | (d1, false) =>
          (d1, 500, [])

/-- `PATCH /api/reviews/:id/resolve` (src/unnamed/part_000 lines 236-249):
calls `resolveReview`; `false` becomes a 404 and no broadcast; `true`
broadcasts one `review-resolved` message; a throw becomes a 500. -/
def patchResolveReview (d : Db) (reviewId : Nat) (now : Nat) : Db × Nat × List Msg :=
  match resolveReview d reviewId now with
  | Except.ok (d1, true) => (d1, 200, [Msg.reviewResolved reviewId])
  | Except.ok (d1, false) => (d1, 404, [])
  | Except.error _ => (d, 500, [])

/-- One WebSocket connection in the `clients` set. `readyState` uses the ws
constants (OPEN = 1); `sendFails` marks a connection whose underlying socket
is broken, so that its `send` does not deliver — in ws such a failure is
reported asynchronously through the `close`/`error` events, never as an
exception inside the `forEach` loop of `broadcast`. -/
structure Client : Type where
  id : Nat
  readyState : Nat
  sendFails : Bool
deriving DecidableEq

def WS_OPEN : Nat := 1

/-- `broadcast(data)` (src/unnamed/part_000 lines 273-280): serialize once,
then for each client in the set, send when `readyState === WebSocket.OPEN`.
Result: the delivery attempts in set order, as (client id, delivered?). -/
def broadcast (clients : List Client) (message : String) : List (Nat × Bool) :=
  let _ := message
  clients.filterMap (fun c =>
    if c.readyState = WS_OPEN then some (c.id, !c.sendFails) else none)

/-- The `close` handler registered per connection (src/unnamed/part_000
lines 295-298): `clients.delete(ws)`; ws fires `close` for a broken
connection, which is how a failed peer leaves the set. -/
def onClose (clients : List Client) (wsId : Nat) : List Client :=
  clients.filter (fun c => c.id ≠ wsId)

/-- The resolve endpoint composed with the fan-out over a concrete client
set: the store write runs first, then each emitted message is broadcast. -/
def resolveWithClients (d : Db) (clients : List Client) (reviewId : Nat) (now : Nat) :
    Db × Nat × List (List (Nat × Bool)) :=
  let p := patchResolveReview d reviewId now
  (p.1, p.2.1, p.2.2.map (fun m => broadcast clients (serializeMsg m)))

/-- Extract the success value of a store call known to succeed (test harness
for building concrete scenarios; not part of the embedded source). -/
def okOr {β : Type} (r : Except DbError β) (fallback : β) : β :=
  match r with
  | Except.ok b => b
  | Except.error _ => fallback

/-- A concrete one-agent database for witnesses and counterexamples. -/
def agentA : Agent :=
  { id := "a", name := "Ava", emoji := "A", role := "Agent", model := "m",
    status := "idle", current_task := none, updated_at := 0 }

def dbA : Db :=
  { agents := [agentA], activities := [], reviews := [],
    nextActivityId := 1, nextReviewId := 1 }

theorem any_id_eq_true {l : List Agent} {s : String} :
    (l.any (fun a => a.id == s) = true) ↔ ∃ a ∈ l, a.id = s := by
  simp [List.any_eq_true]

/-- C4: for an `agentId` absent from the agents table, `logActivity` fails
with the unknown-entity error (`NotFoundError`) and inserts nothing; for an
existing `agentId` it inserts exactly one ActivityRecord, refreshes that
agent's `updated_at`, leaves every other table untouched, and returns the new
record's rowid. -/
theorem c4_logActivity_unknown_fails_known_inserts
    (d : Db) (agentId ty desc md : String) (now : Nat) :
    ((∀ a ∈ d.agents, a.id ≠ agentId) →
      logActivity d agentId ty desc md now = Except.error DbError.notFound) ∧
    ((∃ a ∈ d.agents, a.id = agentId) →
      ∃ d', logActivity d agentId ty desc md now = Except.ok (d', d.nextActivityId) ∧
        d'.activities = d.activities ++
          [{ id := d.nextActivityId, agent_id := agentId, type := ty,
             description := desc, metadata_json := md, timestamp := now }] ∧
        (∀ a ∈ d'.agents, a.id = agentId → a.updated_at = now) ∧
        d'.agents.map Agent.id = d.agents.map Agent.id ∧
        d'.agents.map Agent.status = d.agents.map Agent.status ∧
        d'.reviews = d.reviews ∧
        d'.nextActivityId = d.nextActivityId + 1) := by
  constructor
  · intro h
    have hany : d.agents.any (fun a => a.id == agentId) = false := by
      rw [Bool.eq_false_iff]
      intro hc
      rcases any_id_eq_true.mp hc with ⟨a, ha, heq⟩
      exact h a ha heq
    simp [logActivity, hany]
  · intro h
    have hany : d.agents.any (fun a => a.id == agentId) = true := any_id_eq_true.mpr h
    have hok : logActivity d agentId ty desc md now =
        Except.ok
          ({ d with
              activities := d.activities ++
                [{ id := d.nextActivityId, agent_id := agentId, type := ty,
                   description := desc, metadata_json := md, timestamp := now }],
              agents := d.agents.map (fun a =>
                if a.id == agentId then { a with updated_at := now } else a),
              nextActivityId := d.nextActivityId + 1 },
           d.nextActivityId) := by
      simp only [logActivity, hany]
      rfl
    refine ⟨_, hok, rfl, ?_, ?_, ?_, rfl, rfl⟩
    · intro a ha hid
      simp only [List.mem_map] at ha
      rcases ha with ⟨b, hb, hba⟩
      by_cases hbid : b.id == agentId
      · rw [if_pos hbid] at hba
        rw [← hba]
      · rw [if_neg hbid] at hba
        rw [← hba] at hid
        exact absurd hid (by simpa using hbid)
    · rw [List.map_map]
      refine List.map_congr_left ?_
      intro a _
      by_cases hbid : a.id == agentId
      · simp only [Function.comp_apply, if_pos hbid]
      · simp only [Function.comp_apply, if_neg hbid]
    · rw [List.map_map]
      refine List.map_congr_left ?_
      intro a _
      by_cases hbid : a.id == agentId
      · simp only [Function.comp_apply, if_pos hbid]
      · simp only [Function.comp_apply, if_neg hbid]

/-- Witness for C4 at a concrete database: the agent `a` exists, and the
call inserts the record and returns rowid 1. -/
theorem c4_witness :
    (∃ a ∈ dbA.agents, a.id = "a") ∧
    (∃ d', logActivity dbA "a" "info" "hello" jsonEmpty 5 = Except.ok (d', dbA.nextActivityId) ∧
      d'.activities = dbA.activities ++
        [{ id := dbA.nextActivityId, agent_id := "a", type := "info",
           description := "hello", metadata_json := jsonEmpty, timestamp := 5 }] ∧
      (∀ a ∈ d'.agents, a.id = "a" → a.updated_at = 5) ∧
      d'.agents.map Agent.id = dbA.agents.map Agent.id ∧
      d'.agents.map Agent.status = dbA.agents.map Agent.status ∧
      d'.reviews = dbA.reviews ∧
      d'.nextActivityId = dbA.nextActivityId + 1) :=
  ⟨⟨agentA, by simp [dbA], rfl⟩,
   (c4_logActivity_unknown_fails_known_inserts dbA "a" "info" "hello" jsonEmpty 5).2
     ⟨agentA, by simp [dbA], rfl⟩⟩

theorem any_id_eq_false {l : List Agent} {s : String} :
    (l.any (fun a => a.id == s) = false) ↔ ∀ a ∈ l, a.id ≠ s := by
  simp [List.any_eq_false]

/-- C7 counterexample: on a database without the agent, `updateAgentTask`
returns `false` rather than failing with `NotFoundError` (the 404 for the
task endpoint comes from the route's prior `getAgent` check, not from
`updateAgentTask`). -/
theorem c7_counterexample :
    updateAgentTask emptyDb "ghost" "some task" 3 = Except.ok (emptyDb, false) ∧
    updateAgentTask emptyDb "ghost" "some task" 3 ≠ Except.error DbError.notFound := by
  refine ⟨rfl, ?_⟩
  intro h
  rw [show updateAgentTask emptyDb "ghost" "some task" 3 = Except.ok (emptyDb, false)
    from rfl] at h
  exact Except.noConfusion h

/-- C7 (amended): for every existing `agentId`, `updateAgentTask` sets
`current_task`, forces `status = active`, refreshes `updated_at`, logs one
`task_update` activity describing the new task, and returns `true`; for an
unknown `agentId` it returns `false`, leaves the database unchanged and logs
nothing (it does not throw `NotFoundError` itself — the HTTP route reports
404 from its prior `getAgent` check). -/
theorem c7_updateAgentTask_amended (d : Db) (agentId task : String) (now : Nat) :
    ((∀ a ∈ d.agents, a.id ≠ agentId) →
      updateAgentTask d agentId task now = Except.ok (d, false)) ∧
    ((∃ a ∈ d.agents, a.id = agentId) →
      ∃ d', updateAgentTask d agentId task now = Except.ok (d', true) ∧
        d'.activities = d.activities ++
          [{ id := d.nextActivityId, agent_id := agentId, type := "task_update",
             description := "Updated task: " ++ task, metadata_json := jsonTask task,
             timestamp := now }] ∧
        (∀ a ∈ d'.agents, a.id = agentId →
          a.current_task = some task ∧ a.status = "active" ∧ a.updated_at = now) ∧
        d'.agents.map Agent.id = d.agents.map Agent.id ∧
        d'.reviews = d.reviews) := by
  constructor
  · intro h
    have hany : d.agents.any (fun a => a.id == agentId) = false := any_id_eq_false.mpr h
    simp [updateAgentTask, hany]
  · intro h
    have hany : d.agents.any (fun a => a.id == agentId) = true := any_id_eq_true.mpr h
    have hid_f : ∀ a : Agent,
        (if a.id == agentId then
          { a with current_task := some task, status := "active", updated_at := now }
        else a).id = a.id := by
      intro a
      by_cases hc : a.id == agentId
      · rw [if_pos hc]
      · rw [if_neg hc]
    have hany1 : ((d.agents.map (fun a =>
        if a.id == agentId then
          { a with current_task := some task, status := "active", updated_at := now }
        else a)).any (fun a => a.id == agentId)) = true := by
      rcases h with ⟨a, ha, heq⟩
      refine any_id_eq_true.mpr ⟨_, List.mem_map_of_mem _ ha, ?_⟩
      rw [hid_f a, heq]
    have hok : updateAgentTask d agentId task now =
        Except.ok
          ({ d with
              activities := d.activities ++
                [{ id := d.nextActivityId, agent_id := agentId, type := "task_update",
                   description := "Updated task: " ++ task,
                   metadata_json := jsonTask task, timestamp := now }],
              agents := (d.agents.map (fun a =>
                if a.id == agentId then
                  { a with current_task := some task, status := "active", updated_at := now }
                else a)).map (fun a =>
                  if a.id == agentId then { a with updated_at := now } else a),
              nextActivityId := d.nextActivityId + 1 },
           true) := by
      simp only [updateAgentTask, hany, logActivity, hany1]
      rfl
    refine ⟨_, hok, rfl, ?_, ?_, rfl⟩
    · intro a ha hid
      simp only [List.mem_map] at ha
      rcases ha with ⟨b, ⟨c, hc, hcb⟩, hba⟩
      by_cases hcid : c.id == agentId
      · rw [if_pos hcid] at hcb
        have hbid : b.id == agentId := by rw [← hcb]; exact hcid
        rw [if_pos hbid] at hba
        rw [← hba, ← hcb]
        exact ⟨rfl, rfl, rfl⟩
      · rw [if_neg hcid] at hcb
        have hbid : ¬ (b.id == agentId) = true := by rw [← hcb]; exact hcid
        rw [if_neg hbid] at hba
        rw [← hba, ← hcb] at hid
        exact absurd hid (by simpa using hcid)
    · rw [List.map_map, List.map_map]
      refine List.map_congr_left ?_
      intro a _
      simp only [Function.comp_apply]
      have hid_g : ∀ b : Agent,
          (if b.id == agentId then { b with updated_at := now } else b).id = b.id := by
        intro b
        by_cases hc : b.id == agentId
        · rw [if_pos hc]
        · rw [if_neg hc]
      rw [hid_g _, hid_f a]

/-- Witness for C7 (amended) at the concrete one-agent database. -/
theorem c7_witness :
    (∃ a ∈ dbA.agents, a.id = "a") ∧
    (∃ d', updateAgentTask dbA "a" "ship it" 9 = Except.ok (d', true) ∧
      d'.activities = dbA.activities ++
        [{ id := dbA.nextActivityId, agent_id := "a", type := "task_update",
           description := "Updated task: " ++ "ship it", metadata_json := jsonTask "ship it",
           timestamp := 9 }] ∧
      (∀ a ∈ d'.agents, a.id = "a" →
        a.current_task = some "ship it" ∧ a.status = "active" ∧ a.updated_at = 9) ∧
      d'.agents.map Agent.id = dbA.agents.map Agent.id ∧
      d'.reviews = dbA.reviews) :=
  ⟨⟨agentA, by simp [dbA], rfl⟩,
   (c7_updateAgentTask_amended dbA "a" "ship it" 9).2 ⟨agentA, by simp [dbA], rfl⟩⟩

/-- C5 counterexample: `zombie` is outside the allowed enum, yet
`updateAgentStatus` accepts it — it returns `true`, writes the bogus status
into the agent row, and logs nothing; the status route even answers 200. -/
theorem c5_counterexample :
    (updateAgentStatus dbA "a" "zombie" 7).2 = true ∧
    (updateAgentStatus dbA "a" "zombie" 7).1.agents.map Agent.status = ["zombie"] ∧
    (updateAgentStatus dbA "a" "zombie" 7).1 ≠ dbA ∧
    (updateAgentStatus dbA "a" "zombie" 7).1.activities = dbA.activities ∧
    (postAgentStatus dbA "a" (some "zombie") 7).2.1 = 200 := by
  refine ⟨rfl, rfl, ?_, rfl, rfl⟩
  intro h
  have : (updateAgentStatus dbA "a" "zombie" 7).1.agents.map Agent.status =
      dbA.agents.map Agent.status := by rw [h]
  rw [show (updateAgentStatus dbA "a" "zombie" 7).1.agents.map Agent.status = ["zombie"]
    from rfl] at this
  rw [show dbA.agents.map Agent.status = ["idle"] from rfl] at this
  exact absurd (List.cons.injEq .. ▸ this) (by simp)

/-- C5 (amended): `updateAgentStatus` performs no enum validation — it writes
any status string as-is whenever the agent exists, returns `changes > 0`, and
itself logs no activity; the HTTP route rejects only a missing or empty
status with 400, and on success it (not the store) logs one `status_change`
activity and answers 200. -/
theorem c5_updateAgentStatus_amended (d : Db) (agentId status : String) (now : Nat) :
    ((updateAgentStatus d agentId status now).2 = true ↔ ∃ a ∈ d.agents, a.id = agentId) ∧
    ((updateAgentStatus d agentId status now).1.activities = d.activities) ∧
    (∀ a ∈ (updateAgentStatus d agentId status now).1.agents,
      a.id = agentId → a.status = status) ∧
    (postAgentStatus d agentId none now = (d, 400, [])) ∧
    (postAgentStatus d agentId (some "") now = (d, 400, [])) ∧
    (status ≠ "" → (∃ a ∈ d.agents, a.id = agentId) →
      ∃ d', postAgentStatus d agentId (some status) now =
          (d', 200, [Msg.activity agentId d.nextActivityId,
                     Msg.statusUpdate agentId status]) ∧
        d'.activities = d.activities ++
          [{ id := d.nextActivityId, agent_id := agentId, type := "status_change",
             description := "Status changed to " ++ status,
             metadata_json := jsonStatus status, timestamp := now }]) := by
  refine ⟨?_, ?_, ?_, rfl, rfl, ?_⟩
  · by_cases hany : d.agents.any (fun a => a.id == agentId) = true
    · rw [show (updateAgentStatus d agentId status now).2 = true by
        simp only [updateAgentStatus]; rw [if_pos hany]]
      simp only [true_iff]
      exact any_id_eq_true.mp hany
    · rw [show (updateAgentStatus d agentId status now).2 = false by
        simp only [updateAgentStatus]; rw [if_neg hany]]
      simp only [Bool.false_eq_true, false_iff]
      intro hex
      exact hany (any_id_eq_true.mpr hex)
  · by_cases hany : d.agents.any (fun a => a.id == agentId) = true
    · simp only [updateAgentStatus]; rw [if_pos hany]
    · simp only [updateAgentStatus]; rw [if_neg hany]
  · by_cases hany : d.agents.any (fun a => a.id == agentId) = true
    · simp only [updateAgentStatus]
      rw [if_pos hany]
      intro a ha hid
      simp only [List.mem_map] at ha
      rcases ha with ⟨b, hb, hba⟩
      by_cases hbid : b.id == agentId
      · rw [if_pos hbid] at hba
        rw [← hba]
      · rw [if_neg hbid] at hba
        rw [← hba] at hid
        exact absurd hid (by simpa using hbid)
    · simp only [updateAgentStatus]
      rw [if_neg hany]
      intro a ha hid
      exact absurd (any_id_eq_true.mpr ⟨a, ha, hid⟩) hany
  · intro hne h
    have hany : d.agents.any (fun a => a.id == agentId) = true := any_id_eq_true.mpr h
    have hga : ∃ ag, getAgent d agentId = some ag := by
      rw [← Option.isSome_iff_exists]
      rw [getAgent, List.find?_isSome]
      rcases h with ⟨a, ha, heq⟩
      exact ⟨a, ha, by simpa using heq⟩
    rcases hga with ⟨ag, hga⟩
    have hupd : updateAgentStatus d agentId status now =
        ({ d with agents := d.agents.map (fun a =>
            if a.id == agentId then { a with status := status, updated_at := now }
            else a) }, true) := by
      simp only [updateAgentStatus]; rw [if_pos hany]
    have hany1 : ((d.agents.map (fun a =>
        if a.id == agentId then { a with status := status, updated_at := now }
        else a)).any (fun a => a.id == agentId)) = true := by
      rcases h with ⟨a, ha, heq⟩
      refine any_id_eq_true.mpr ⟨_, List.mem_map_of_mem _ ha, ?_⟩
      by_cases hc : a.id == agentId
      · rw [if_pos hc]; exact heq
      · rw [if_neg hc]; exact heq
    have hlog : logActivity
        { d with agents := d.agents.map (fun a =>
            if a.id == agentId then { a with status := status, updated_at := now }
            else a) }
        agentId "status_change" ("Status changed to " ++ status)
        (jsonStatus status) now =
        Except.ok
          ({ d with
              activities := d.activities ++
                [{ id := d.nextActivityId, agent_id := agentId, type := "status_change",
                   description := "Status changed to " ++ status,
                   metadata_json := jsonStatus status, timestamp := now }],
              agents := (d.agents.map (fun a =>
                if a.id == agentId then { a with status := status, updated_at := now }
                else a)).map (fun a =>
                  if a.id == agentId then { a with updated_at := now } else a),
              nextActivityId := d.nextActivityId + 1 },
           d.nextActivityId) := by
      simp only [logActivity]; rw [if_pos hany1]
    have hpost : postAgentStatus d agentId (some status) now =
        ({ d with
            activities := d.activities ++
              [{ id := d.nextActivityId, agent_id := agentId, type := "status_change",
                 description := "Status changed to " ++ status,
                 metadata_json := jsonStatus status, timestamp := now }],
            agents := (d.agents.map (fun a =>
              if a.id == agentId then { a with status := status, updated_at := now }
              else a)).map (fun a =>
                if a.id == agentId then { a with updated_at := now } else a),
            nextActivityId := d.nextActivityId + 1 },
         200,
         [Msg.activity agentId d.nextActivityId, Msg.statusUpdate agentId status]) := by
      simp only [postAgentStatus]
      rw [if_neg hne]
      simp only [hga, hupd, hlog]
    exact ⟨_, hpost, rfl⟩

/-- Witness for C5 (amended): a nonempty (but out-of-enum) status on an
existing agent reaches the 200 path with its logged `status_change`. -/
theorem c5_witness :
    ("zombie" : String) ≠ "" ∧ (∃ a ∈ dbA.agents, a.id = "a") ∧
    (∃ d', postAgentStatus dbA "a" (some "zombie") 7 =
        (d', 200, [Msg.activity "a" dbA.nextActivityId, Msg.statusUpdate "a" "zombie"]) ∧
      d'.activities = dbA.activities ++
        [{ id := dbA.nextActivityId, agent_id := "a", type := "status_change",
           description := "Status changed to " ++ "zombie",
           metadata_json := jsonStatus "zombie", timestamp := 7 }]) := by
  refine ⟨by decide, ⟨agentA, by simp [dbA], rfl⟩, ?_⟩
  exact (c5_updateAgentStatus_amended dbA "a" "zombie" 7).2.2.2.2.2
    (by decide) ⟨agentA, by simp [dbA], rfl⟩

/-- A concrete database with one agent and one pending review. -/
def reviewR : Review :=
  { id := 1, agent_id := "a", question := "Ship the feature?", priority := "high",
    status := "pending", created_at := 0, resolved_at := none }

def dbR : Db :=
  { agents := [agentA], activities := [], reviews := [reviewR],
    nextActivityId := 1, nextReviewId := 2 }

/-- State after the first `resolveReview` (test harness). -/
def dbR1 : Db := (okOr (resolveReview dbR 1 5) (dbR, false)).1

/-- State after resolving the already-resolved review a second time. -/
def dbR2 : Db := (okOr (resolveReview dbR1 1 6) (dbR1, false)).1

/-- C1 counterexample: after review 1 has been resolved (`dbR1`), a second
`resolveReview` on the same id does NOT fail — it returns `true` again, logs
a second `review_resolved` activity, and the PATCH route answers 200 and
emits a second `review-resolved` event. -/
theorem c1_counterexample :
    resolveReview dbR 1 5 = Except.ok (dbR1, true) ∧
    dbR1.reviews.map Review.status = ["resolved"] ∧
    resolveReview dbR1 1 6 = Except.ok (dbR2, true) ∧
    (dbR2.activities.filter (fun a => a.type == "review_resolved")).length = 2 ∧
    (patchResolveReview dbR1 1 6).2.1 = 200 ∧
    (patchResolveReview dbR1 1 6).2.2 = [Msg.reviewResolved 1] := by
  exact ⟨rfl, rfl, rfl, rfl, rfl, rfl⟩

/-- C1 (amended): `resolveReview` fails (returns `false`, surfaced as 404 with
no event) exactly when no review row has the given id; whenever the id exists
— pending or already resolved — it succeeds again: it re-stamps
`status = resolved` and `resolved_at = now`, logs a (possibly second)
`review_resolved` activity, and the route answers 200 and emits a (possibly
second) `review-resolved` event. -/
theorem c1_resolveReview_amended (d : Db) (reviewId now : Nat) (r : Review) :
    ((∀ q ∈ d.reviews, q.id ≠ reviewId) →
      resolveReview d reviewId now = Except.ok (d, false) ∧
      patchResolveReview d reviewId now = (d, 404, [])) ∧
    (d.reviews.find? (fun q => q.id == reviewId) = some r →
      (∃ a ∈ d.agents, a.id = r.agent_id) →
      ∃ d', resolveReview d reviewId now = Except.ok (d', true) ∧
        patchResolveReview d reviewId now = (d', 200, [Msg.reviewResolved reviewId]) ∧
        d'.activities = d.activities ++
          [{ id := d.nextActivityId, agent_id := r.agent_id, type := "review_resolved",
             description := "Resolved review: " ++ r.question.take 50 ++ "...",
             metadata_json := jsonReviewId reviewId, timestamp := now }] ∧
        (∀ q ∈ d'.reviews, q.id = reviewId →
          q.status = "resolved" ∧ q.resolved_at = some now)) := by
  constructor
  · intro h
    have hany : d.reviews.any (fun q => q.id == reviewId) = false := by
      rw [Bool.eq_false_iff]
      intro hc
      simp only [List.any_eq_true, beq_iff_eq] at hc
      rcases hc with ⟨q, hq, heq⟩
      exact h q hq heq
    have hres : resolveReview d reviewId now = Except.ok (d, false) := by
      simp only [resolveReview]; rw [if_neg (by simp [hany])]
    exact ⟨hres, by simp only [patchResolveReview, hres]⟩
  · intro hfind hag
    have hmem : r ∈ d.reviews := List.mem_of_find?_eq_some hfind
    have hrid0 := List.find?_some hfind
    have hrid : (r.id == reviewId) = true := hrid0
    have hany : d.reviews.any (fun q => q.id == reviewId) = true :=
      List.any_eq_true.mpr ⟨r, hmem, hrid⟩
    have hpid : ∀ q : Review,
        ((if q.id == reviewId then
            { q with status := "resolved", resolved_at := some now }
          else q) : Review).id = q.id := by
      intro q
      by_cases hc : q.id == reviewId
      · rw [if_pos hc]
      · rw [if_neg hc]
    have hfind1 : (d.reviews.map (fun q =>
        if q.id == reviewId then
          { q with status := "resolved", resolved_at := some now }
        else q)).find? (fun q => q.id == reviewId) =
        some { r with status := "resolved", resolved_at := some now } := by
      rw [List.find?_map]
      have hpred : ((fun q : Review => q.id == reviewId) ∘ (fun q =>
          if q.id == reviewId then
            { q with status := "resolved", resolved_at := some now }
          else q)) = (fun q : Review => q.id == reviewId) := by
        funext q
        simp only [Function.comp_apply]
        rw [hpid q]
      rw [hpred, hfind, Option.map_some']
      rw [if_pos hrid]
    have hanyA : d.agents.any (fun a => a.id == r.agent_id) = true :=
      any_id_eq_true.mpr hag
    have hlog : logActivity
        { d with reviews := d.reviews.map (fun q =>
            if q.id == reviewId then
              { q with status := "resolved", resolved_at := some now }
            else q) }
        r.agent_id "review_resolved"
        ("Resolved review: " ++ r.question.take 50 ++ "...")
        (jsonReviewId reviewId) now =
        Except.ok
          ({ d with
              reviews := d.reviews.map (fun q =>
                if q.id == reviewId then
                  { q with status := "resolved", resolved_at := some now }
                else q),
              activities := d.activities ++
                [{ id := d.nextActivityId, agent_id := r.agent_id,
                   type := "review_resolved",
                   description := "Resolved review: " ++ r.question.take 50 ++ "...",
                   metadata_json := jsonReviewId reviewId, timestamp := now }],
              agents := d.agents.map (fun a =>
                if a.id == r.agent_id then { a with updated_at := now } else a),
              nextActivityId := d.nextActivityId + 1 },
           d.nextActivityId) := by
      simp only [logActivity]; rw [if_pos hanyA]
    have hres : resolveReview d reviewId now =
        Except.ok
          ({ d with
              reviews := d.reviews.map (fun q =>
                if q.id == reviewId then
                  { q with status := "resolved", resolved_at := some now }
                else q),
              activities := d.activities ++
                [{ id := d.nextActivityId, agent_id := r.agent_id,
                   type := "review_resolved",
                   description := "Resolved review: " ++ r.question.take 50 ++ "...",
                   metadata_json := jsonReviewId reviewId, timestamp := now }],
              agents := d.agents.map (fun a =>
                if a.id == r.agent_id then { a with updated_at := now } else a),
              nextActivityId := d.nextActivityId + 1 },
           true) := by
      simp only [resolveReview]
      rw [if_pos (by simp [hany])]
      simp only [hfind1, hlog]
      rfl
    refine ⟨_, hres, by simp only [patchResolveReview, hres], rfl, ?_⟩
    intro q hq hid
    simp only [List.mem_map] at hq
    rcases hq with ⟨b, hb, hbq⟩
    by_cases hbid : b.id == reviewId
    · rw [if_pos hbid] at hbq
      rw [← hbq]
      exact ⟨rfl, rfl⟩
    · rw [if_neg hbid] at hbq
      rw [← hbq] at hid
      exact absurd hid (by simpa using hbid)

/-- Witness for C1 (amended) on the concrete database: review 1 exists
(pending), its agent exists, and the resolve succeeds with the logged
activity. -/
theorem c1_witness :
    dbR.reviews.find? (fun q => q.id == 1) = some reviewR ∧
    (∃ a ∈ dbR.agents, a.id = reviewR.agent_id) ∧
    (∃ d', resolveReview dbR 1 5 = Except.ok (d', true) ∧
      patchResolveReview dbR 1 5 = (d', 200, [Msg.reviewResolved 1]) ∧
      d'.activities = dbR.activities ++
        [{ id := dbR.nextActivityId, agent_id := reviewR.agent_id,
           type := "review_resolved",
           description := "Resolved review: " ++ reviewR.question.take 50 ++ "...",
           metadata_json := jsonReviewId 1, timestamp := 5 }] ∧
      (∀ q ∈ d'.reviews, q.id = 1 → q.status = "resolved" ∧ q.resolved_at = some 5)) :=
  ⟨rfl, ⟨agentA, by simp [dbR], rfl⟩,
   (c1_resolveReview_amended dbR 1 5 reviewR).2 rfl ⟨agentA, by simp [dbR], rfl⟩⟩

/-- Test harness: append `n` activities for agent `"a"` at distinct
timestamps `1..n`. -/
def insertActs (d : Db) : Nat → Db
  | 0 => d
  | n + 1 =>
    let d1 := insertActs d n
    (okOr (logActivity d1 "a" "info" "tick" jsonEmpty (n + 1)) (d1, 0)).1

set_option maxRecDepth 40000 in
/-- C2 counterexample: the spec bound is N = 50, yet after inserting
N + 5 = 55 activities for one agent, `agentActivities(id, 55)` returns all
55 records — `src/db.js` performs no retention trimming at all. -/
theorem c2_counterexample :
    (getAgentActivities (insertActs dbA 55) "a" 55).length = 55 ∧
    ¬ (getAgentActivities (insertActs dbA 55) "a" 55).length ≤ 50 := by
  refine ⟨rfl, ?_⟩
  rw [show (getAgentActivities (insertActs dbA 55) "a" 55).length = 55 from rfl]
  decide

/-- C2 (amended): there is no retention trimming — `logActivity` only ever
appends (each successful insert grows the log by exactly one record, none are
evicted) — while the query-level half of the claim does hold: no read returns
more records than its `limit` argument. -/
theorem c2_retention_amended (d : Db) (agentId : String) (lim : Nat) :
    (getAgentActivities d agentId lim).length ≤ lim ∧
    (getRecentActivities d lim).length ≤ lim ∧
    (∀ ty desc md now d' rid,
      logActivity d agentId ty desc md now = Except.ok (d', rid) →
      d'.activities.length = d.activities.length + 1) := by
  refine ⟨?_, ?_, ?_⟩
  · simp only [getAgentActivities]
    exact List.length_take_le _ _
  · simp only [getRecentActivities]
    exact List.length_take_le _ _
  · intro ty desc md now d' rid hok
    by_cases hany : d.agents.any (fun a => a.id == agentId) = true
    · have hlog : logActivity d agentId ty desc md now =
          Except.ok
            ({ d with
                activities := d.activities ++
                  [{ id := d.nextActivityId, agent_id := agentId, type := ty,
                     description := desc, metadata_json := md, timestamp := now }],
                agents := d.agents.map (fun a =>
                  if a.id == agentId then { a with updated_at := now } else a),
                nextActivityId := d.nextActivityId + 1 },
             d.nextActivityId) := by
        simp only [logActivity]; rw [if_pos hany]
      rw [hlog] at hok
      have hpair := Except.ok.inj hok
      have hdb := congrArg Prod.fst hpair
      simp only at hdb
      rw [← hdb]
      simp [List.length_append]
    · have hlog : logActivity d agentId ty desc md now = Except.error DbError.notFound := by
        simp only [logActivity]; rw [if_neg hany]
      rw [hlog] at hok
      exact Except.noConfusion hok

/-- State of `dbA` after one logged activity (test harness). -/
def dbALogged : Db := (okOr (logActivity dbA "a" "info" "hello" jsonEmpty 5) (dbA, 0)).1

/-- Witness for C2 (amended): a concrete successful insert grows the log from
0 to 1 record. -/
theorem c2_witness :
    logActivity dbA "a" "info" "hello" jsonEmpty 5 = Except.ok (dbALogged, 1) ∧
    dbALogged.activities.length = dbA.activities.length + 1 :=
  ⟨rfl, (c2_retention_amended dbA "a" 0).2.2 "info" "hello" jsonEmpty 5 dbALogged 1 rfl⟩

/-- Two activities for the same agent inserted in the same clock tick
(SQLite CURRENT_TIMESTAMP has one-second resolution). -/
def actT1 : Activity :=
  { id := 1, agent_id := "a", type := "info", description := "first",
    metadata_json := jsonEmpty, timestamp := 5 }

def actT2 : Activity :=
  { id := 2, agent_id := "a", type := "info", description := "second",
    metadata_json := jsonEmpty, timestamp := 5 }

def dbT : Db :=
  { agents := [agentA], activities := [actT1, actT2], reviews := [],
    nextActivityId := 3, nextReviewId := 1 }

/-- C3 counterexample: both reads order by `timestamp DESC` only; two rows
with equal timestamps come back in rowid-ascending order [1, 2], not the
claimed id-descending tie-break [2, 1]. -/
theorem c3_counterexample :
    (getAgentActivities dbT "a" 20).map Activity.id = [1, 2] ∧
    (getAgentActivities dbT "a" 20).map Activity.id ≠ [2, 1] ∧
    (getRecentActivities dbT 20).map RecentRow.id = [1, 2] ∧
    (getRecentActivities dbT 20).map RecentRow.id ≠ [2, 1] := by
  refine ⟨rfl, ?_, rfl, ?_⟩
  · rw [show (getAgentActivities dbT "a" 20).map Activity.id = [1, 2] from rfl]
    decide
  · rw [show (getRecentActivities dbT 20).map RecentRow.id = [1, 2] from rfl]
    decide

theorem tsDesc_total {α : Type} (ts : α → Nat) :
    ∀ a b, tsDesc ts a b = true ∨ tsDesc ts b a = true := by
  intro a b
  simp only [tsDesc, Nat.ble_eq]
  exact (Nat.le_total (ts b) (ts a)).imp id id

theorem tsDesc_trans {α : Type} (ts : α → Nat) :
    ∀ a b c, tsDesc ts a b = true → tsDesc ts b c = true → tsDesc ts a c = true := by
  intro a b c hab hbc
  simp only [tsDesc, Nat.ble_eq] at *
  exact Nat.le_trans hbc hab

/-- C3 (amended): both "recent N" reads return records ordered by `timestamp`
descending, but with no id tie-break: the queries specify only
`ORDER BY timestamp DESC`, and rows sharing a timestamp are returned in
rowid-ascending (insertion) order, as the counterexample shows. The per-agent
read also returns only rows of the requested agent. -/
theorem c3_ordering_amended (d : Db) (agentId : String) (lim : Nat) :
    ((getAgentActivities d agentId lim).Pairwise
      (fun x y => y.timestamp ≤ x.timestamp)) ∧
    ((getRecentActivities d lim).Pairwise
      (fun x y => y.timestamp ≤ x.timestamp)) ∧
    (∀ a ∈ getAgentActivities d agentId lim, a.agent_id = agentId) := by
  refine ⟨?_, ?_, ?_⟩
  · have hp := pairwise_sortBy (tsDesc_total Activity.timestamp)
      (tsDesc_trans Activity.timestamp)
      (d.activities.filter (fun a => a.agent_id == agentId))
    have := List.Pairwise.sublist (List.take_sublist lim _) hp
    refine this.imp ?_
    intro x y hxy
    simpa [tsDesc, Nat.ble_eq] using hxy
  · have hp := pairwise_sortBy (tsDesc_total RecentRow.timestamp)
      (tsDesc_trans RecentRow.timestamp)
      (d.activities.filterMap (fun a =>
        (d.agents.find? (fun ag => ag.id == a.agent_id)).map (fun ag =>
          { id := a.id, agent_id := a.agent_id, type := a.type,
            description := a.description, metadata_json := a.metadata_json,
            timestamp := a.timestamp, agent_name := ag.name,
            agent_emoji := ag.emoji })))
    have := List.Pairwise.sublist (List.take_sublist lim _) hp
    refine this.imp ?_
    intro x y hxy
    simpa [tsDesc, Nat.ble_eq] using hxy
  · intro a ha
    have hsorted : a ∈ sortBy (tsDesc Activity.timestamp)
        (d.activities.filter (fun x => x.agent_id == agentId)) :=
      (List.take_sublist lim _).mem ha
    have hfilter : a ∈ d.activities.filter (fun x => x.agent_id == agentId) :=
      (sortBy_perm _ _).mem_iff.mp hsorted
    have := List.of_mem_filter hfilter
    simpa using this

/-- Test harness around `addReview` for building concrete scenarios. -/
def addReviewD (d : Db) (agentId question priority : String) (now : Nat) : Db :=
  (okOr (addReview d agentId question priority now) (d, 0)).1

/-- Reviews of priority low, high, medium created in that order (times 1,2,3). -/
def dbScenario : Db :=
  addReviewD (addReviewD (addReviewD dbA "a" "q-low" "low" 1) "a" "q-high" "high" 2)
    "a" "q-med" "medium" 3

theorem reviewOrder_iff (x y : PendingRow) :
    reviewOrder x y = true ↔
      (priorityRank x.priority < priorityRank y.priority ∨
        (priorityRank x.priority = priorityRank y.priority ∧
          y.created_at ≤ x.created_at)) := by
  simp [reviewOrder, Nat.blt_eq, Nat.ble_eq]

theorem reviewOrder_total : ∀ x y, reviewOrder x y = true ∨ reviewOrder y x = true := by
  intro x y
  rw [reviewOrder_iff, reviewOrder_iff]
  rcases Nat.lt_trichotomy (priorityRank x.priority) (priorityRank y.priority) with h | h | h
  · exact Or.inl (Or.inl h)
  · rcases Nat.le_total y.created_at x.created_at with hc | hc
    · exact Or.inl (Or.inr ⟨h, hc⟩)
    · exact Or.inr (Or.inr ⟨h.symm, hc⟩)
  · exact Or.inr (Or.inl h)

theorem reviewOrder_trans : ∀ x y z, reviewOrder x y = true → reviewOrder y z = true →
    reviewOrder x z = true := by
  intro x y z hxy hyz
  rw [reviewOrder_iff] at *
  rcases hxy with h1 | ⟨h1, h1c⟩ <;> rcases hyz with h2 | ⟨h2, h2c⟩
  · exact Or.inl (Nat.lt_trans h1 h2)
  · exact Or.inl (h2 ▸ h1)
  · exact Or.inl (h1 ▸ h2)
  · exact Or.inr ⟨h1.trans h2, Nat.le_trans h2c h1c⟩

/-- C6: `pendingReviews()` returns only rows with status `pending`, sorted by
priority rank (high=1, medium=2, low=3, other=4) ascending and, within equal
rank, by `created_at` descending; concretely, pending reviews of priority
low, high, medium created in that order come back as high, medium, low. -/
theorem c6_pendingReviews_order (d : Db) :
    (∀ row ∈ getPendingReviews d, row.status = "pending") ∧
    ((getPendingReviews d).Pairwise (fun x y =>
      priorityRank x.priority < priorityRank y.priority ∨
        (priorityRank x.priority = priorityRank y.priority ∧
          y.created_at ≤ x.created_at))) ∧
    (getPendingReviews dbScenario).map PendingRow.priority =
      ["high", "medium", "low"] := by
  refine ⟨?_, ?_, rfl⟩
  · intro row hrow
    have hjoin : row ∈ (d.reviews.filter (fun r => r.status == "pending")).filterMap
        (fun r => (d.agents.find? (fun ag => ag.id == r.agent_id)).map (fun ag =>
          ({ id := r.id, agent_id := r.agent_id, question := r.question,
             priority := r.priority, status := r.status, created_at := r.created_at,
             agent_name := ag.name, agent_emoji := ag.emoji } : PendingRow))) :=
      (sortBy_perm _ _).mem_iff.mp hrow
    rcases List.mem_filterMap.mp hjoin with ⟨r, hr, hmap⟩
    rcases Option.map_eq_some'.mp hmap with ⟨ag, _, hrow_eq⟩
    have hpending := List.of_mem_filter hr
    rw [← hrow_eq]
    simpa using hpending
  · have hp := pairwise_sortBy reviewOrder_total reviewOrder_trans
      ((d.reviews.filter (fun r => r.status == "pending")).filterMap
        (fun r => (d.agents.find? (fun ag => ag.id == r.agent_id)).map (fun ag =>
          ({ id := r.id, agent_id := r.agent_id, question := r.question,
             priority := r.priority, status := r.status, created_at := r.created_at,
             agent_name := ag.name, agent_emoji := ag.emoji } : PendingRow))))
    refine hp.imp ?_
    intro x y hxy
    exact (reviewOrder_iff x y).mp hxy

/-- The head row of the concrete scenario query. -/
def rowHigh : PendingRow :=
  { id := 2, agent_id := "a", question := "q-high", priority := "high",
    status := "pending", created_at := 2, agent_name := "Ava", agent_emoji := "A" }

/-- Witness for C6 at the concrete scenario: the head row of the scenario
query is pending. -/
theorem c6_witness :
    rowHigh ∈ getPendingReviews dbScenario ∧ rowHigh.status = "pending" :=
  ⟨by decide, (c6_pendingReviews_order dbScenario).1 rowHigh (by decide)⟩

/-- One existing activity at tick 5 for agent `"a"`. -/
def dbT0 : Db :=
  { agents := [agentA], activities := [actT1], reviews := [],
    nextActivityId := 2, nextReviewId := 1 }

/-- `dbT0` after logging a second activity in the same clock tick. -/
def dbT0after : Db :=
  (okOr (logActivity dbT0 "a" "info" "second" jsonEmpty 5) (dbT0, 0)).1

/-- C8 counterexample: the freshly inserted record (id 2) shares its
timestamp with an earlier record (id 1); `agentActivities(id, 1)` orders by
timestamp only and returns the OLD record first, not the one just logged. -/
theorem c8_counterexample :
    logActivity dbT0 "a" "info" "second" jsonEmpty 5 = Except.ok (dbT0after, 2) ∧
    (getAgentActivities dbT0after "a" 1).map Activity.id = [1] ∧
    (getAgentActivities dbT0after "a" 1).map Activity.id ≠ [2] := by
  refine ⟨rfl, rfl, ?_⟩
  rw [show (getAgentActivities dbT0after "a" 1).map Activity.id = [1] from rfl]
  decide

/-- C8 (amended): `logActivity` followed by `agentActivities(id, 1)` returns
exactly the new record first, PROVIDED the new record's timestamp is strictly
later than that of every activity the agent already had — without that
proviso a same-tick older record can be returned first, as the counterexample
shows. -/
theorem c8_roundtrip_amended (d : Db) (agentId ty desc md : String) (now : Nat)
    (d' : Db) (rid : Nat)
    (hok : logActivity d agentId ty desc md now = Except.ok (d', rid))
    (hfresh : ∀ a ∈ d.activities, a.agent_id = agentId → a.timestamp < now) :
    getAgentActivities d' agentId 1 =
      [{ id := rid, agent_id := agentId, type := ty, description := desc,
         metadata_json := md, timestamp := now }] := by
  by_cases hany : d.agents.any (fun a => a.id == agentId) = true
  · have hlog : logActivity d agentId ty desc md now =
        Except.ok
          ({ d with
              activities := d.activities ++
                [{ id := d.nextActivityId, agent_id := agentId, type := ty,
                   description := desc, metadata_json := md, timestamp := now }],
              agents := d.agents.map (fun a =>
                if a.id == agentId then { a with updated_at := now } else a),
              nextActivityId := d.nextActivityId + 1 },
           d.nextActivityId) := by
      simp only [logActivity]; rw [if_pos hany]
    rw [hlog] at hok
    have hpair := Except.ok.inj hok
    have hdb := congrArg Prod.fst hpair
    have hrid := congrArg Prod.snd hpair
    simp only at hdb hrid
    rw [← hdb, ← hrid]
    have hacts : ({ d with
        activities := d.activities ++
          [{ id := d.nextActivityId, agent_id := agentId, type := ty,
             description := desc, metadata_json := md, timestamp := now }],
        agents := d.agents.map (fun a =>
          if a.id == agentId then { a with updated_at := now } else a),
        nextActivityId := d.nextActivityId + 1 } : Db).activities =
        d.activities ++
          [{ id := d.nextActivityId, agent_id := agentId, type := ty,
             description := desc, metadata_json := md, timestamp := now }] := rfl
    simp only [getAgentActivities, hacts]
    rw [List.filter_append]
    have hnewfil : List.filter (fun a => a.agent_id == agentId)
        [({ id := d.nextActivityId, agent_id := agentId, type := ty,
            description := desc, metadata_json := md, timestamp := now } : Activity)] =
        [{ id := d.nextActivityId, agent_id := agentId, type := ty,
           description := desc, metadata_json := md, timestamp := now }] := by
      simp [List.filter]
    rw [hnewfil]
    obtain ⟨t, hsort⟩ := sortBy_cons_of_strict
      (tsDesc_total Activity.timestamp) (tsDesc_trans Activity.timestamp)
      (l := d.activities.filter (fun a => a.agent_id == agentId) ++
        [{ id := d.nextActivityId, agent_id := agentId, type := ty,
           description := desc, metadata_json := md, timestamp := now }])
      (x := { id := d.nextActivityId, agent_id := agentId, type := ty,
              description := desc, metadata_json := md, timestamp := now })
      (List.mem_append_right _ (List.mem_singleton.mpr rfl))
      (by
        intro y hy hne
        rcases List.mem_append.mp hy with hyl | hyr
        · have hmem := List.mem_of_mem_filter hyl
          have hpred := List.of_mem_filter hyl
          have hts : y.timestamp < now :=
            hfresh y hmem (by simpa using hpred)
          simp only [tsDesc]
          rw [Bool.eq_false_iff]
          intro hc
          rw [Nat.ble_eq] at hc
          omega
        · exact absurd (List.mem_singleton.mp hyr) hne)
    rw [hsort]
    rfl
  · have hlog : logActivity d agentId ty desc md now = Except.error DbError.notFound := by
      simp only [logActivity]; rw [if_neg hany]
    rw [hlog] at hok
    exact Except.noConfusion hok

/-- Witness for C8 (amended): logging at tick 9 (strictly after the existing
tick-5 record) makes the new record come back first. -/
theorem c8_witness :
    logActivity dbT0 "a" "info" "second" jsonEmpty 9 =
      Except.ok ((okOr (logActivity dbT0 "a" "info" "second" jsonEmpty 9) (dbT0, 0)).1, 2) ∧
    getAgentActivities
        (okOr (logActivity dbT0 "a" "info" "second" jsonEmpty 9) (dbT0, 0)).1 "a" 1 =
      [{ id := 2, agent_id := "a", type := "info", description := "second",
         metadata_json := jsonEmpty, timestamp := 9 }] :=
  ⟨rfl,
   c8_roundtrip_amended dbT0 "a" "info" "second" jsonEmpty 9 _ 2 rfl
     (by
       intro a ha hid
       rcases List.mem_singleton.mp ha with rfl
       decide)⟩

theorem broadcast_ids_sublist (l : List Client) (m : String) :
    ((broadcast l m).map Prod.fst).Sublist (l.map Client.id) := by
  induction l with
  | nil => simp [broadcast]
  | cons c cs ih =>
    simp only [broadcast, List.filterMap_cons, List.map_cons] at *
    by_cases hc : c.readyState = WS_OPEN
    · rw [if_pos hc]
      exact List.Sublist.cons₂ _ ih
    · rw [if_neg hc]
      exact List.Sublist.cons _ ih

/-- C9: the fan-out serializes one message and attempts delivery to each
member of the live set at most once (ids of the attempts are distinct when
the set has distinct connections); every OPEN connection receives its
attempt regardless of any other connection's failure; the store write and
HTTP result of the triggering operation do not depend on the client set at
all (so no delivery failure can abort it); and the close handler fired by a
broken connection removes exactly that connection from the set. -/
theorem c9_broadcast_fanout (d : Db) (clients clients' : List Client)
    (reviewId now : Nat) (msg : String) (wsId : Nat)
    (hnodup : (clients.map Client.id).Nodup) :
    ((broadcast clients msg).map Prod.fst).Nodup ∧
    (∀ c ∈ clients, c.readyState = WS_OPEN →
      (c.id, !c.sendFails) ∈ broadcast clients msg) ∧
    ((resolveWithClients d clients reviewId now).1 =
        (resolveWithClients d clients' reviewId now).1 ∧
      (resolveWithClients d clients reviewId now).2.1 =
        (resolveWithClients d clients' reviewId now).2.1) ∧
    (∀ c ∈ clients, c.id = wsId → c ∉ onClose clients wsId) ∧
    (∀ c ∈ clients, c.id ≠ wsId → c ∈ onClose clients wsId) := by
  refine ⟨?_, ?_, ⟨rfl, rfl⟩, ?_, ?_⟩
  · exact hnodup.sublist (broadcast_ids_sublist clients msg)
  · intro c hc hopen
    refine List.mem_filterMap.mpr ⟨c, hc, ?_⟩
    rw [if_pos hopen]
  · intro c _ heq hmem
    have := List.of_mem_filter hmem
    simp only [decide_eq_true_eq] at this
    exact this heq
  · intro c hc hne
    refine List.mem_filter.mpr ⟨hc, ?_⟩
    simpa using hne

/-- Three concrete connections: two OPEN (one of them broken), one CLOSED. -/
def clientsW : List Client :=
  [{ id := 1, readyState := 1, sendFails := false },
   { id := 2, readyState := 1, sendFails := true },
   { id := 3, readyState := 3, sendFails := false }]

/-- Witness for C9: with a broken OPEN connection (id 2) in the set, the
healthy connection id 1 still gets its delivery, the attempt list has no
duplicate ids, the resolve endpoint's database result is unchanged by the
client set, and closing connection 2 removes only it. -/
theorem c9_witness :
    (clientsW.map Client.id).Nodup ∧
    ((broadcast clientsW "m").map Prod.fst).Nodup ∧
    ({ id := 1, readyState := 1, sendFails := false } : Client) ∈ clientsW ∧
    (1, true) ∈ broadcast clientsW "m" ∧
    (resolveWithClients dbR clientsW 1 5).1 = (resolveWithClients dbR [] 1 5).1 ∧
    ({ id := 2, readyState := 1, sendFails := true } : Client) ∉ onClose clientsW 2 ∧
    ({ id := 1, readyState := 1, sendFails := false } : Client) ∈ onClose clientsW 2 := by
  have hnodup : (clientsW.map Client.id).Nodup := by decide
  have h := c9_broadcast_fanout dbR clientsW [] 1 5 "m" 2 hnodup
  refine ⟨hnodup, h.1, by decide, ?_, h.2.2.1.1, ?_, ?_⟩
  · have := h.2.1 { id := 1, readyState := 1, sendFails := false } (by decide) rfl
    simpa using this
  · exact h.2.2.2.1 _ (by decide) rfl
  · exact h.2.2.2.2 _ (by decide) (by decide)

/-- `initDb` on a state, discarding the (unreachable) error (test harness). -/
def initDbD (d : Db) (now : Nat) : Db := okOr (initDb d now) d

set_option maxRecDepth 4000 in
/-- C10: database initialization is idempotent with respect to seeding —
`initDb` seeds the three fleet agents and the sample reviews only when the
agents table is empty, so repeating it changes nothing: composing two
`initDb` calls equals one, a fresh database ends with exactly one copy of
each seed agent, and the three sample reviews are never re-inserted. -/
theorem c10_initDb_idempotent :
    (∀ (d : Db) (n m : Nat),
      (initDb d n).bind (fun d1 => initDb d1 m) = initDb d n) ∧
    (initDbD emptyDb 0).agents.map Agent.id = ["buppy", "zoomie", "mechly"] ∧
    ((initDbD emptyDb 0).agents.filter (fun a => a.id == "buppy")).length = 1 ∧
    (initDbD emptyDb 0).reviews.length = 3 ∧
    initDb (initDbD emptyDb 0) 9 = Except.ok (initDbD emptyDb 0) := by
  refine ⟨?_, rfl, rfl, rfl, rfl⟩
  intro d n m
  rcases d with ⟨ags, acts, revs, na, nr⟩
  cases ags with
  | nil => rfl
  | cons a as => rfl

/-- Witness for C3 (amended) at the concrete tie database: record 1 is
returned by the per-agent read and belongs to agent `"a"`. -/
theorem c3_witness :
    actT1 ∈ getAgentActivities dbT "a" 20 ∧ actT1.agent_id = "a" :=
  ⟨by decide, (c3_ordering_amended dbT "a" 20).2.2 actT1 (by decide)⟩

end PuppyStation
